import Mathlib

/-!
Verification of the nested forward-convolution template of the oneDNN
graph compiler (`src/graph/backend/graph_compiler/core/src/ops/templates/
nested_conv_fwd.cpp`).

The file shallowly embeds, in Lean, the integer planning and loop-emission
logic of that translation unit:

* the small integer helpers the template calls
  (`utils::divide_and_ceil`, `get_splits`, `utils::get_blocks`,
  `utils::get_factors`, `block_split`, `get_suitable_block`);
* the blocking-configuration planner `gen_nested_conv_fwd_t::get_default_config`;
* the constructor `gen_nested_conv_fwd_t::gen_nested_conv_fwd_t`
  (shape validation and derived flags);
* the iteration spaces of the loop-nest emitters
  (`compute_1x1_pack_input_nested`,
  `compute_conv_no_padding_os_blocking_nested`): which micro-kernel calls
  run and which output-region fusion anchors are published;
* `gen_nested_conv_fwd_t::schedule_loops` and the loop lists the emitters
  produce;
* the data-type / `kpack` validation at the head of
  `gen_nested_conv_fwd_t::generate`.

Helpers that the translation unit calls but whose definitions live in
headers outside the extracted sources are modelled from the specification
and are marked `Modelled from the spec:` in their doc comments.

All arithmetic is on `Nat` (the C++ code only ever feeds non-negative
`int` values to these computations); the one place where a C++ `int`
expression can become negative — the tail of `block_split` — is modelled
on `Int`.
-/

namespace NestedConvFwd

/-- The helper `utils::divide_and_ceil(x, y) = (x + y - 1) / y` (integer ceiling
division). Modelled from the spec: the helper lives in
`util/utils.hpp`, outside the extracted sources; every use in the spec
and the template is plain ceiling division. -/
def divideAndCeil (x y : Nat) : Nat := (x + y - 1) / y

/-- The helper `get_splits(x)`: the divisors of `x` in increasing order. Modelled
from the spec: the helper lives in `ops/templates/utils.hpp`, outside
the extracted sources; the spec uses it as "the divisors of the thread
count" (§4.3 step 1) and "alternative micro-block candidates" drawn from
the divisors of the channel count (§4.3 step 3). -/
def getSplits (x : Nat) : List Nat :=
  (List.range (x + 1)).filter (fun d => x % d == 0)

/-- The value `utils::get_blocks(x, 1, cap).back()`: the largest divisor of `x`
that does not exceed `cap`. Modelled from the spec: `utils::get_blocks`
lives in `util/utils.hpp`, outside the extracted sources; the spec
(§4.3 step 2) describes the call as enumerating candidate block sizes
(divisors) up to the cap and picking the largest. -/
def getBlocksBack (x cap : Nat) : Nat :=
  ((getSplits x).filter (fun d => d ≤ cap)).foldl max 1

/-- The helper `utils::get_factors(x)`: the divisors of `x` in increasing order.
Modelled from the spec: the helper lives outside the extracted sources;
§4.4 and §9 describe the `oc_split` search as a first-fit scan over the
divisors of the per-thread block count in increasing order. -/
def getFactors (x : Nat) : List Nat := getSplits x

/-- The partition helper `block_split(total, threads)`, returning
`(used_threads, blocks_per_thread, tail_blocks_per_thread)`. Modelled
from the spec (§4.1), the definition living in `ops/templates/utils.hpp`
outside the extracted sources: `used_threads = min(thread_count,
total_blocks)`, `blocks_per_thread = ceil(total_blocks / used_threads)`,
`tail_blocks_per_thread = total_blocks - blocks_per_thread *
(used_threads - 1)`. The tail is an `Int` because the C++ subtraction is
on `int` and can go negative. -/
def blockSplit (total threads : Nat) : Nat × Nat × Int :=
  let usedThreads := min threads total
  let blocksPerThread := divideAndCeil total usedThreads
  (usedThreads, blocksPerThread,
    (total : Int) - blocksPerThread * (usedThreads - 1))

/-- Ceiling division in terms of quotient and remainder. -/
theorem divideAndCeil_eq (a b : Nat) (hb : 0 < b) :
    divideAndCeil a b = a / b + (if a % b = 0 then 0 else 1) := by
  have hmod := Nat.mod_lt a hb
  have h1 : a + b - 1 = b * (a / b) + (a % b + b - 1) := by
    have := Nat.div_add_mod a b
    omega
  by_cases h : a % b = 0
  · simp only [divideAndCeil, h1, h, Nat.add_zero]
    rw [Nat.mul_add_div hb]
    simp [h, Nat.div_eq_of_lt (by omega : b - 1 < b)]
  · simp only [divideAndCeil, h1]
    rw [Nat.mul_add_div hb]
    have h2 : (a % b + b - 1) / b = 1 :=
      Nat.div_eq_of_lt_le (by omega) (by omega)
    simp [h, h2]

/-- C1 counterexample: at `total_blocks = 9`, `thread_count = 7` the
spec's own formulas give `used_threads = 7`, `blocks_per_thread = 2` and
`tail_blocks_per_thread = 9 - 2 * 6 = -3`, so the claimed consequences
`used_threads * blocks_per_thread - blocks_per_thread < total_blocks`
and `tail ≥ 1` are both false. -/
theorem c1_claim_counterexample :
    blockSplit 9 7 = (7, 2, -3) ∧
    ¬((blockSplit 9 7).1 * (blockSplit 9 7).2.1 - (blockSplit 9 7).2.1 < 9 ∧
      1 ≤ (blockSplit 9 7).2.2) := by
  constructor
  · rfl
  · decide

/-- Core arithmetic facts about the partition formulas, for an explicit
used-thread count `u` with `1 ≤ u ≤ total`. -/
theorem partition_core (total u : Nat) (hu : 1 ≤ u) (hut : u ≤ total) :
    total ≤ u * divideAndCeil total u ∧
    (total : Int) - (divideAndCeil total u : Int) * ((u : Int) - 1)
      ≤ (divideAndCeil total u : Int) ∧
    ((total % u = 0 ∨ u ≤ total / u + total % u) ↔
      u * divideAndCeil total u - divideAndCeil total u < total ∧
        1 ≤ (total : Int) - (divideAndCeil total u : Int) * ((u : Int) - 1)) := by
  have hbpt : divideAndCeil total u = total / u + (if total % u = 0 then 0 else 1) :=
    divideAndCeil_eq total u hu
  have hdm := Nat.div_add_mod total u
  have hmlt := Nat.mod_lt total hu
  have hq : 1 ≤ total / u := (Nat.one_le_div_iff hu).mpr hut
  have hqle : total / u ≤ u * (total / u) := Nat.le_mul_of_pos_left _ hu
  by_cases h : total % u = 0
  · have hb : divideAndCeil total u = total / u := by
      rw [hbpt, if_pos h]
      omega
    rw [hb]
    have htotN : total = u * (total / u) := by omega
    have htot : (total : Int) = (u : Int) * ((total / u : Nat) : Int) := by
      exact_mod_cast htotN
    have hqz : (1 : Int) ≤ ((total / u : Nat) : Int) := by exact_mod_cast hq
    have huz : (1 : Int) ≤ (u : Int) := by exact_mod_cast hu
    have hexp : ((total / u : Nat) : Int) * ((u : Int) - 1)
        = (u : Int) * ((total / u : Nat) : Int) - ((total / u : Nat) : Int) := by
      ring
    refine ⟨by omega, ?_, fun _ => ⟨by omega, ?_⟩, fun _ => Or.inl h⟩
    · rw [hexp]; linarith
    · rw [hexp]; linarith
  · have hb : divideAndCeil total u = total / u + 1 := by
      rw [hbpt, if_neg h]
    rw [hb]
    have hmul : u * (total / u + 1) = u * (total / u) + u := by ring
    have htot : (total : Int)
        = (u : Int) * ((total / u : Nat) : Int) + ((total % u : Nat) : Int) := by
      exact_mod_cast hdm.symm
    have hrz : (1 : Int) ≤ ((total % u : Nat) : Int) := by
      exact_mod_cast Nat.pos_of_ne_zero h
    have hruz : ((total % u : Nat) : Int) < (u : Int) := by exact_mod_cast hmlt
    have hc1 : ((total / u + 1 : Nat) : Int) = ((total / u : Nat) : Int) + 1 := by
      push_cast
      ring
    have hexp : (((total / u : Nat) : Int) + 1) * ((u : Int) - 1)
        = (u : Int) * ((total / u : Nat) : Int) + (u : Int)
          - ((total / u : Nat) : Int) - 1 := by
      ring
    refine ⟨by omega, ?_, fun hcond => ?_, fun hcons => ?_⟩
    · rw [hc1, hexp]; linarith
    · have hur : u ≤ total / u + total % u := by
        rcases hcond with hc | hc
        · exact absurd hc h
        · exact hc
      have hur2 : (u : Int) ≤ ((total / u : Nat) : Int) + ((total % u : Nat) : Int) := by
        exact_mod_cast hur
      refine ⟨by omega, ?_⟩
      rw [hc1, hexp]
      linarith
    · have htail := hcons.2
      rw [hc1, hexp] at htail
      have hur2 : (u : Int) ≤ ((total / u : Nat) : Int) + ((total % u : Nat) : Int) := by
        linarith
      exact Or.inr (by exact_mod_cast hur2)

/-- C1 (amended): for `total_blocks ≥ 1`, `thread_count ≥ 1`,
`block_split` yields exactly the three formulas of the contract, and
`used_threads * blocks_per_thread ≥ total_blocks` and
`tail ≤ blocks_per_thread` always hold; the remaining claimed
consequences — `used_threads * blocks_per_thread - blocks_per_thread <
total_blocks` and `tail ≥ 1` — hold exactly on the inputs where
`total_blocks % used_threads = 0` or `used_threads ≤ total_blocks /
used_threads + total_blocks % used_threads` (they fail, e.g., at
`(9, 7)`). -/
theorem c1_partition_amended (total threads : Nat)
    (htotal : 1 ≤ total) (hthreads : 1 ≤ threads)
    (ut bpt : Nat) (tail : Int)
    (heq : blockSplit total threads = (ut, bpt, tail)) :
    ut = min threads total ∧
    bpt = divideAndCeil total ut ∧
    tail = (total : Int) - (bpt : Int) * ((ut : Int) - 1) ∧
    total ≤ ut * bpt ∧
    tail ≤ (bpt : Int) ∧
    ((total % ut = 0 ∨ ut ≤ total / ut + total % ut) ↔
      (ut * bpt - bpt < total ∧ 1 ≤ tail)) := by
  have heq' : ((min threads total, divideAndCeil total (min threads total),
      (total : Int) - ((divideAndCeil total (min threads total) : Nat) : Int)
        * (((min threads total : Nat) : Int) - 1)) : Nat × Nat × Int)
      = (ut, bpt, tail) := by
    rw [← heq]
    exact rfl
  injection heq' with h1 h23
  injection h23 with h2 h3
  subst h1
  subst h2
  subst h3
  have hu : 1 ≤ min threads total := le_min hthreads htotal
  have hut : min threads total ≤ total := min_le_right _ _
  have hcore := partition_core total (min threads total) hu hut
  exact ⟨rfl, rfl, rfl, hcore.1, hcore.2.1, hcore.2.2⟩

/-- C1 witness: the amended partition theorem at `total_blocks = 7`,
`thread_count = 3` (here `used = 3`, `per = 3`, `tail = 1`). -/
theorem c1_partition_amended_witness :
    (1 : Nat) ≤ 7 ∧ (1 : Nat) ≤ 3 ∧ blockSplit 7 3 = (3, 3, 1) ∧
    (3 * 3 - 3 < 7 ∧ (1 : Int) ≤ 1) :=
  ⟨by decide, by decide, by decide,
    ((c1_partition_amended 7 3 (by decide) (by decide) 3 3 1 (by decide)).2.2.2.2.2).mp
      (by decide)⟩

/-- Membership in the divisor list. -/
theorem mem_getSplits {d n : Nat} : d ∈ getSplits n ↔ d ≤ n ∧ n % d = 0 := by
  simp only [getSplits, List.mem_filter, List.mem_range, beq_iff_eq]
  omega

/-- The divisor list is strictly increasing. -/
theorem getSplits_pairwise (n : Nat) : (getSplits n).Pairwise (· < ·) :=
  (List.pairwise_lt_range (n + 1)).sublist (List.filter_sublist _)

/-- Any divisor of `n ≥ 1` is in the divisor list. -/
theorem dvd_mem_getSplits {d n : Nat} (hn : 1 ≤ n) (hd : d ∣ n) : d ∈ getSplits n :=
  mem_getSplits.mpr ⟨Nat.le_of_dvd hn hd, Nat.eq_zero_of_dvd_of_lt hd |> fun _ =>
    Nat.mod_eq_zero_of_dvd hd⟩

/-- Any member of the divisor list divides `n`. -/
theorem dvd_of_mem_getSplits {d n : Nat} (hd : d ∈ getSplits n) : d ∣ n :=
  Nat.dvd_of_mod_eq_zero (mem_getSplits.mp hd).2

/-- On a strictly increasing list, `find?` returns the least element
satisfying the predicate. -/
theorem find_first_on_ascending (p : Nat → Bool) :
    ∀ (xs : List Nat), xs.Pairwise (· < ·) → ∀ b, xs.find? p = some b →
      p b = true ∧ b ∈ xs ∧ ∀ x ∈ xs, p x = true → b ≤ x := by
  intro xs
  induction xs with
  | nil => intro _ b hb; simp at hb
  | cons a t ih =>
    intro hpw b hb
    rcases List.pairwise_cons.mp hpw with ⟨halt, hpt⟩
    by_cases hpa : p a = true
    · rw [List.find?_cons_of_pos _ hpa] at hb
      injection hb with hb
      subst hb
      refine ⟨hpa, List.mem_cons_self _ _, ?_⟩
      intro x hx _
      rcases List.mem_cons.mp hx with h | h
      · omega
      · exact Nat.le_of_lt (halt x h)
    · rw [List.find?_cons_of_neg _ hpa] at hb
      obtain ⟨h1, h2, h3⟩ := ih hpt b hb
      refine ⟨h1, List.mem_cons_of_mem _ h2, ?_⟩
      intro x hx hpx
      rcases List.mem_cons.mp hx with h | h
      · exact absurd (h ▸ hpx) hpa
      · exact h3 x h hpx

/-- On a strictly decreasing list, `find?` returns the greatest element
satisfying the predicate. -/
theorem find_first_on_descending (p : Nat → Bool) :
    ∀ (xs : List Nat), xs.Pairwise (· > ·) → ∀ b, xs.find? p = some b →
      p b = true ∧ b ∈ xs ∧ ∀ x ∈ xs, p x = true → x ≤ b := by
  intro xs
  induction xs with
  | nil => intro _ b hb; simp at hb
  | cons a t ih =>
    intro hpw b hb
    rcases List.pairwise_cons.mp hpw with ⟨halt, hpt⟩
    by_cases hpa : p a = true
    · rw [List.find?_cons_of_pos _ hpa] at hb
      injection hb with hb
      subst hb
      refine ⟨hpa, List.mem_cons_self _ _, ?_⟩
      intro x hx _
      rcases List.mem_cons.mp hx with h | h
      · omega
      · exact Nat.le_of_lt (halt x h)
    · rw [List.find?_cons_of_neg _ hpa] at hb
      obtain ⟨h1, h2, h3⟩ := ih hpt b hb
      refine ⟨h1, List.mem_cons_of_mem _ h2, ?_⟩
      intro x hx hpx
      rcases List.mem_cons.mp hx with h | h
      · exact absurd (h ▸ hpx) hpa
      · exact h3 x h hpx

/-- The batch-thread selection of `get_default_config` (source lines
72-78): `num_threads` when the batch is large relative to the thread
count, otherwise the first entry of the reversed divisor list of
`num_threads` that is `1` or `< mb`. -/
def bsThreadsSel (mb numThreads oc : Nat) : Nat :=
  if mb > numThreads ∨ (mb = numThreads ∧ oc ≤ 128) then numThreads
  else
    (((getSplits numThreads).reverse.find?
      (fun split => split == 1 || decide (split < mb))).getD 1)

/-- C7 counterexample: with `num_threads = 8`, `mb = 6`, `oc = 64`
(so the large-batch branch is not taken), the code selects
`bs_threads = 4`, which is a divisor of the thread count that does NOT
evenly divide the batch size 6 (the claim would require 2, the largest
divisor of 8 dividing 6, or 1). -/
theorem c7_claim_counterexample :
    ¬(6 > 8 ∨ (6 = 8 ∧ 64 ≤ 128)) ∧
    bsThreadsSel 6 8 64 = 4 ∧ ¬((4 : Nat) ∣ 6) ∧ (4 : Nat) ≠ 1 := by
  refine ⟨by decide, ?_, by decide, by decide⟩
  decide

/-- C7 (amended): when the batch is not large relative to the thread
count, the selected `bs_threads` is the largest divisor of
`num_threads` that is `1` or strictly smaller than the batch size (not
"that evenly divides the batch size"); `oc_threads` is then
`num_threads / bs_threads` by the next line of the source. -/
theorem c7_bs_threads_amended (mb nt oc : Nat) (hnt : 1 ≤ nt)
    (hc1 : ¬ mb > nt) (hc2 : ¬ (mb = nt ∧ oc ≤ 128)) :
    bsThreadsSel mb nt oc ∣ nt ∧
    (bsThreadsSel mb nt oc = 1 ∨ bsThreadsSel mb nt oc < mb) ∧
    ∀ d, d ∣ nt → (d = 1 ∨ d < mb) → d ≤ bsThreadsSel mb nt oc := by
  have hcond : ¬(mb > nt ∨ (mb = nt ∧ oc ≤ 128)) := by
    intro h
    rcases h with h | h
    · exact hc1 h
    · exact hc2 h
  rw [bsThreadsSel, if_neg hcond]
  set p : Nat → Bool := fun split => split == 1 || decide (split < mb) with hp
  have hpw : ((getSplits nt).reverse).Pairwise (· > ·) := by
    rw [List.pairwise_reverse]
    exact getSplits_pairwise nt
  have h1mem : (1 : Nat) ∈ (getSplits nt).reverse := by
    rw [List.mem_reverse]
    exact dvd_mem_getSplits hnt (one_dvd nt)
  have hsome : ∃ b, ((getSplits nt).reverse).find? p = some b := by
    rcases hfind : ((getSplits nt).reverse).find? p with _ | b
    · exfalso
      have := List.find?_eq_none.mp hfind 1 h1mem
      simp [hp] at this
    · exact ⟨b, rfl⟩
  obtain ⟨b, hb⟩ := hsome
  obtain ⟨hpb, hbmem, hmax⟩ := find_first_on_descending p _ hpw b hb
  rw [hb]
  simp only [Option.getD_some]
  have hbdvd : b ∣ nt := dvd_of_mem_getSplits (List.mem_reverse.mp hbmem)
  have hbp : b = 1 ∨ b < mb := by
    simpa [hp] using hpb
  refine ⟨hbdvd, hbp, ?_⟩
  intro d hd hdp
  apply hmax
  · rw [List.mem_reverse]
    exact dvd_mem_getSplits hnt hd
  · simp only [hp, Bool.or_eq_true_iff, beq_iff_eq, decide_eq_true_eq]
    exact hdp

/-- C7 witness: the amended selection theorem at `mb = 6`,
`num_threads = 8`, `oc = 64` (selected `bs_threads = 4`, a divisor of 8
below 6; `oc_threads = 8 / 4 = 2`). -/
theorem c7_bs_threads_amended_witness :
    (1 ≤ 8 ∧ ¬ 6 > 8 ∧ ¬ (6 = 8 ∧ 64 ≤ 128)) ∧
    (bsThreadsSel 6 8 64 ∣ 8 ∧
      (bsThreadsSel 6 8 64 = 1 ∨ bsThreadsSel 6 8 64 < 6)) ∧
    8 / bsThreadsSel 6 8 64 = 2 :=
  ⟨⟨by decide, by decide, by decide⟩,
    ⟨(c7_bs_threads_amended 6 8 64 (by decide) (by decide) (by decide)).1,
      (c7_bs_threads_amended 6 8 64 (by decide) (by decide) (by decide)).2.1⟩,
    by decide⟩

/-- One iteration of the candidate scan inside the lambda
`get_suitable_block` (source lines 95-109): a `split` replaces the
current `suitable` when its block count distributes evenly over the
threads and either the current one does not or the split is strictly
closer to the original block. -/
def suitableStep (total threads originalBlock : Nat) (suitable split : Nat) : Nat :=
  let numBlock := total / split
  if numBlock % threads = 0 then
    if (total / suitable) % threads ≠ 0 ∨
        Nat.dist originalBlock split < Nat.dist originalBlock suitable then
      split
    else suitable
  else suitable

/-- The lambda `get_suitable_block(total, original_block, splits, threads)` (source
lines 95-109): scan the candidate list, keeping the qualifying candidate
closest to the original block, starting from the original block. -/
def getSuitableBlock (total originalBlock : Nat) (splits : List Nat)
    (threads : Nat) : Nat :=
  splits.foldl (suitableStep total threads originalBlock) originalBlock

/-- Invariant of the candidate scan: the result divides `total`
(provided the accumulator and all candidates do), qualifying candidates
are preserved, and the final value minimises the distance to the
original block among qualifying candidates. -/
theorem suitable_fold_spec (total threads o : Nat) :
    ∀ (xs : List Nat) (acc : Nat), (∀ x ∈ xs, x ∣ total) → acc ∣ total →
      (xs.foldl (suitableStep total threads o) acc ∣ total) ∧
      ((total / xs.foldl (suitableStep total threads o) acc) % threads ≠ 0 →
        xs.foldl (suitableStep total threads o) acc = acc ∧
          ∀ x ∈ xs, (total / x) % threads ≠ 0) ∧
      (((total / acc) % threads = 0 ∨ ∃ x ∈ xs, (total / x) % threads = 0) →
        (total / xs.foldl (suitableStep total threads o) acc) % threads = 0) ∧
      ((total / xs.foldl (suitableStep total threads o) acc) % threads = 0 →
        (∀ x ∈ xs, (total / x) % threads = 0 →
          Nat.dist o (xs.foldl (suitableStep total threads o) acc) ≤ Nat.dist o x) ∧
        ((total / acc) % threads = 0 →
          Nat.dist o (xs.foldl (suitableStep total threads o) acc)
            ≤ Nat.dist o acc)) := by
  intro xs
  induction xs with
  | nil =>
    intro acc _ hacc
    refine ⟨hacc, fun _ => ⟨rfl, by simp⟩, ?_, fun _ => ⟨by simp, fun _ => le_refl _⟩⟩
    rintro (h | ⟨x, hx, _⟩)
    · exact h
    · simp at hx
  | cons a t ih =>
    intro acc hdvd hacc
    have hadvd : a ∣ total := hdvd a (List.mem_cons_self _ _)
    have htdvd : ∀ x ∈ t, x ∣ total := fun x hx => hdvd x (List.mem_cons_of_mem _ hx)
    set a' := suitableStep total threads o acc a with ha'
    have ha'cases : a' = a ∨ a' = acc := by
      rw [ha', suitableStep]
      by_cases h1 : (total / a) % threads = 0
      · by_cases h2 : (total / acc) % threads ≠ 0 ∨
            Nat.dist o a < Nat.dist o acc
        · rw [if_pos h1, if_pos h2]; exact Or.inl rfl
        · rw [if_pos h1, if_neg h2]; exact Or.inr rfl
      · rw [if_neg h1]; exact Or.inr rfl
    have ha'dvd : a' ∣ total := by
      rcases ha'cases with h | h
      · rw [h]; exact hadvd
      · rw [h]; exact hacc
    have hfold : (a :: t).foldl (suitableStep total threads o) acc
        = t.foldl (suitableStep total threads o) a' := rfl
    obtain ⟨ih1, ih2, ih3, ih4⟩ := ih a' htdvd ha'dvd
    -- step facts
    have s1 : (total / a) % threads ≠ 0 → a' = acc := by
      intro h
      rw [ha', suitableStep, if_neg h]
    have s2 : (total / a) % threads = 0 → (total / a') % threads = 0 := by
      intro h
      rw [ha', suitableStep]
      by_cases h2 : (total / acc) % threads ≠ 0 ∨ Nat.dist o a < Nat.dist o acc
      · rw [if_pos h, if_pos h2]; exact h
      · rw [if_pos h, if_neg h2]
        push_neg at h2
        exact h2.1
    have s3 : (total / a) % threads = 0 →
        Nat.dist o a' ≤ Nat.dist o a ∧
          ((total / acc) % threads = 0 → Nat.dist o a' ≤ Nat.dist o acc) := by
      intro h
      rw [ha', suitableStep]
      by_cases h2 : (total / acc) % threads ≠ 0 ∨ Nat.dist o a < Nat.dist o acc
      · rw [if_pos h, if_pos h2]
        refine ⟨le_refl _, fun hq => ?_⟩
        rcases h2 with h2 | h2
        · exact absurd hq h2
        · exact Nat.le_of_lt h2
      · rw [if_pos h, if_neg h2]
        push_neg at h2
        exact ⟨h2.2, fun _ => le_refl _⟩
    have s4 : (total / a') % threads ≠ 0 → a' = acc ∧ (total / a) % threads ≠ 0 := by
      intro h
      by_cases hqa : (total / a) % threads = 0
      · exact absurd (s2 hqa) h
      · exact ⟨s1 hqa, hqa⟩
    rw [hfold]
    refine ⟨ih1, ?_, ?_, ?_⟩
    · intro hnq
      obtain ⟨he, hall⟩ := ih2 hnq
      have hnqa' : (total / a') % threads ≠ 0 := by
        rw [← he]; exact hnq
      obtain ⟨heacc, hnqa⟩ := s4 hnqa'
      refine ⟨by rw [he, heacc], ?_⟩
      intro x hx
      rcases List.mem_cons.mp hx with h | h
      · rw [h]; exact hnqa
      · exact hall x h
    · rintro (hq | ⟨x, hx, hqx⟩)
      · apply ih3
        left
        by_cases hqa : (total / a) % threads = 0
        · exact s2 hqa
        · rw [s1 hqa]; exact hq
      · rcases List.mem_cons.mp hx with h | h
        · apply ih3
          left
          exact s2 (h ▸ hqx)
        · exact ih3 (Or.inr ⟨x, h, hqx⟩)
    · intro hqr
      obtain ⟨ihmin, ihacc⟩ := ih4 hqr
      constructor
      · intro x hx hqx
        rcases List.mem_cons.mp hx with h | h
        · subst h
          have hqa' := s2 hqx
          exact le_trans (ihacc hqa') (s3 hqx).1
        · exact ihmin x h hqx
      · intro hq
        by_cases hqa : (total / a) % threads = 0
        · exact le_trans (ihacc (s2 hqa)) ((s3 hqa).2 hq)
        · have he := s1 hqa
          have : Nat.dist o (t.foldl (suitableStep total threads o) a')
              ≤ Nat.dist o a' := by
            apply ihacc
            rw [he]
            exact hq
          calc Nat.dist o (t.foldl (suitableStep total threads o) a')
              ≤ Nat.dist o a' := this
            _ = Nat.dist o acc := by rw [he]

/-- C8: `get_suitable_block(oc, original, get_splits(oc), threads)`
always returns a divisor of `oc` (given the original block divides it),
and when some divisor of `oc` distributes its block count evenly over
the threads, the result is such a divisor at minimal `|original - ·|`
distance; when no divisor qualifies, the original block is kept.
In particular the chosen `im_oc_block` always divides the channel
count. -/
theorem c8_suitable_block (total originalBlock threads : Nat)
    (htotal : 1 ≤ total) (horig : originalBlock ∣ total) :
    getSuitableBlock total originalBlock (getSplits total) threads ∣ total ∧
    ((∃ d, d ∣ total ∧ (total / d) % threads = 0) →
      (total / getSuitableBlock total originalBlock (getSplits total) threads)
          % threads = 0 ∧
      ∀ d, d ∣ total → (total / d) % threads = 0 →
        Nat.dist originalBlock
            (getSuitableBlock total originalBlock (getSplits total) threads)
          ≤ Nat.dist originalBlock d) ∧
    ((∀ d, d ∣ total → (total / d) % threads ≠ 0) →
      getSuitableBlock total originalBlock (getSplits total) threads
        = originalBlock) := by
  have hdvd : ∀ x ∈ getSplits total, x ∣ total := fun x hx => dvd_of_mem_getSplits hx
  obtain ⟨f1, f2, f3, f4⟩ :=
    suitable_fold_spec total threads originalBlock (getSplits total) originalBlock
      hdvd horig
  rw [getSuitableBlock]
  refine ⟨f1, ?_, ?_⟩
  · rintro ⟨d, hd, hqd⟩
    have hq : (total / (getSplits total).foldl
        (suitableStep total threads originalBlock) originalBlock) % threads = 0 := by
      apply f3
      right
      exact ⟨d, dvd_mem_getSplits htotal hd, hqd⟩
    refine ⟨hq, ?_⟩
    intro e he hqe
    exact (f4 hq).1 e (dvd_mem_getSplits htotal he) hqe
  · intro hnone
    by_cases hq : (total / (getSplits total).foldl
        (suitableStep total threads originalBlock) originalBlock) % threads = 0
    · exact absurd hq (hnone _ f1)
    · exact (f2 hq).1

/-- C8 witness: `oc = 96`, original micro-block `96` (the largest
divisor of 96 below the cap 128), `oc_threads = 3`: the result is a
divisor of 96 that distributes evenly (the scan picks 32, with
`96 / 32 = 3` blocks over 3 threads). -/
theorem c8_suitable_block_witness :
    (1 ≤ 96 ∧ (96 : Nat) ∣ 96 ∧ getBlocksBack 96 128 = 96) ∧
    getSuitableBlock 96 96 (getSplits 96) 3 = 32 ∧
    getSuitableBlock 96 96 (getSplits 96) 3 ∣ 96 :=
  ⟨⟨by decide, by decide, by decide⟩, by decide,
    (c8_suitable_block 96 96 3 (by decide) (by decide)).1⟩

/-- The outer output-channel split computed by the two no-padding
emitters (source lines 1230-1249 and 1529-1548): when the weight
footprint reaches the L2 cache size, batch parallelism suffices,
`oc_threads == 1` and `oc_num_block_pt == 1`, scan the factors of
`oc_block / im_oc_block` in increasing order for the first one at least
`ceil(weight_size / L2)`, else keep that ratio; the split is that value
unless it exceeds the block count, in which case it is 1. -/
def ocSplitHeuristic (mb nthreads ocThreads ocNumBlockPt ocBlock imOcBlock
    weightSize l2CacheSize : Nat) : Nat :=
  let parallelSpaceIsEnough :=
    mb % nthreads = 0 ∨ divideAndCeil mb nthreads > 8
  if weightSize ≥ l2CacheSize ∧ parallelSpaceIsEnough ∧ ocThreads = 1 ∧
      ocNumBlockPt = 1 then
    let numBlock := ocBlock / imOcBlock
    let expectedSplitNum :=
      match (getFactors numBlock).find?
          (fun factor => decide (factor ≥ divideAndCeil weightSize l2CacheSize)) with
      | some factor => factor
      | none => divideAndCeil weightSize l2CacheSize
    if numBlock < expectedSplitNum then 1 else expectedSplitNum
  else 1

/-- C9: `oc_split ≠ 1` only under the four gating conditions, and under
them the split is the smallest factor of `oc_block / im_oc_block` that
is at least `ceil(weight_size / L2)` when the block count reaches that
ratio, and 1 otherwise. -/
theorem c9_oc_split (mb nthreads ocThreads ocNumBlockPt ocBlock imOcBlock ws l2 : Nat)
    (hnb : 1 ≤ ocBlock / imOcBlock) :
    (ocSplitHeuristic mb nthreads ocThreads ocNumBlockPt ocBlock imOcBlock ws l2 ≠ 1 →
      (l2 ≤ ws ∧ (mb % nthreads = 0 ∨ divideAndCeil mb nthreads > 8) ∧
        ocThreads = 1 ∧ ocNumBlockPt = 1)) ∧
    ((l2 ≤ ws ∧ (mb % nthreads = 0 ∨ divideAndCeil mb nthreads > 8) ∧
        ocThreads = 1 ∧ ocNumBlockPt = 1) →
      ((divideAndCeil ws l2 ≤ ocBlock / imOcBlock →
          ocSplitHeuristic mb nthreads ocThreads ocNumBlockPt ocBlock imOcBlock ws l2
              ∣ ocBlock / imOcBlock ∧
          divideAndCeil ws l2
            ≤ ocSplitHeuristic mb nthreads ocThreads ocNumBlockPt ocBlock imOcBlock ws l2 ∧
          (∀ d, d ∣ ocBlock / imOcBlock → divideAndCeil ws l2 ≤ d →
            ocSplitHeuristic mb nthreads ocThreads ocNumBlockPt ocBlock imOcBlock ws l2
              ≤ d)) ∧
        (ocBlock / imOcBlock < divideAndCeil ws l2 →
          ocSplitHeuristic mb nthreads ocThreads ocNumBlockPt ocBlock imOcBlock ws l2
            = 1))) := by
  set nb := ocBlock / imOcBlock with hnbdef
  set ratio := divideAndCeil ws l2 with hratio
  set p : Nat → Bool := fun factor => decide (factor ≥ ratio) with hp
  constructor
  · intro hne
    by_cases hcond : l2 ≤ ws ∧ (mb % nthreads = 0 ∨ divideAndCeil mb nthreads > 8) ∧
        ocThreads = 1 ∧ ocNumBlockPt = 1
    · exact hcond
    · exfalso
      apply hne
      rw [ocSplitHeuristic, if_neg]
      exact hcond
  · intro hcond
    have hunfold : ocSplitHeuristic mb nthreads ocThreads ocNumBlockPt ocBlock
        imOcBlock ws l2
        = (let expectedSplitNum :=
            match (getFactors nb).find? p with
            | some factor => factor
            | none => ratio
          if nb < expectedSplitNum then 1 else expectedSplitNum) := by
      rw [ocSplitHeuristic, if_pos hcond]
    constructor
    · intro hle
      have hnbmem : nb ∈ getFactors nb := dvd_mem_getSplits hnb dvd_rfl
      have hsome : ∃ b, (getFactors nb).find? p = some b := by
        rcases hfind : (getFactors nb).find? p with _ | b
        · exfalso
          have := List.find?_eq_none.mp hfind nb hnbmem
          simp [hp] at this
          omega
        · exact ⟨b, rfl⟩
      obtain ⟨b, hb⟩ := hsome
      obtain ⟨hpb, hbmem, hmin⟩ :=
        find_first_on_ascending p (getFactors nb) (getSplits_pairwise nb) b hb
      have hbr : ratio ≤ b := by simpa [hp] using hpb
      have hbdvd : b ∣ nb := dvd_of_mem_getSplits hbmem
      have hbnb : b ≤ nb := Nat.le_of_dvd hnb hbdvd
      have hres : ocSplitHeuristic mb nthreads ocThreads ocNumBlockPt ocBlock
          imOcBlock ws l2 = b := by
        rw [hunfold]
        simp only [hb]
        rw [if_neg (by omega)]
      rw [hres]
      refine ⟨hbdvd, hbr, ?_⟩
      intro d hd hrd
      exact hmin d (dvd_mem_getSplits hnb hd) (by simpa [hp] using hrd)
    · intro hlt
      have hnone : (getFactors nb).find? p = none := by
        rcases hfind : (getFactors nb).find? p with _ | b
        · rfl
        · exfalso
          obtain ⟨hpb, hbmem, _⟩ :=
            find_first_on_ascending p (getFactors nb) (getSplits_pairwise nb) b hfind
          have hbr : ratio ≤ b := by simpa [hp] using hpb
          have hbnb : b ≤ nb := Nat.le_of_dvd hnb (dvd_of_mem_getSplits hbmem)
          omega
      rw [hunfold]
      simp only [hnone]
      rw [if_pos hlt]

/-- C9 witness: `mb = 8` on 8 threads, `oc_threads = 1`,
`oc_num_block_pt = 1`, block count `8 / 2 = 4`, weight size 3 with an
L2 of 1: the split is the smallest factor of 4 at least
`ceil(3/1) = 3`, namely 4. -/
theorem c9_oc_split_witness :
    (1 ≤ 8 / 2 ∧ (1 ≤ 3 ∧ (8 % 8 = 0 ∨ divideAndCeil 8 8 > 8) ∧
      1 = 1 ∧ 1 = 1) ∧ divideAndCeil 3 1 ≤ 8 / 2) ∧
    ocSplitHeuristic 8 8 1 1 8 2 3 1 = 4 ∧
    divideAndCeil 3 1 ≤ ocSplitHeuristic 8 8 1 1 8 2 3 1 :=
  ⟨⟨by decide, ⟨by decide, by decide, by decide, by decide⟩, by decide⟩,
    by decide,
    (((c9_oc_split 8 8 1 1 8 2 3 1 (by decide)).2
      ⟨by decide, by decide, by decide, by decide⟩).1 (by decide)).2.1⟩

/-- The element data types relevant to the `kpack` selection in
`generate` (source lines 1969-1989). -/
inductive ScDtype where
  | f32
  | s32
  | bf16
  | f16
  | u8
  | s8
deriving DecidableEq, Fintype

/-- The fatal data-type mismatches `generate` can raise before emitting
any loop nest. -/
inductive DtypeErr where
  | weightNotBf16
  | outputNotF32
  | weightNotS8
  | outputNotS32
deriving DecidableEq

/-- Result of the `kpack` selection: either a pack factor or a fatal
assertion. -/
inductive KpackResult where
  | ok (kpack : Nat)
  | fatal (e : DtypeErr)
deriving DecidableEq

/-- Whether a `kpack` computation ended in a fatal assertion. -/
def kpackFatal : KpackResult → Bool
  | .fatal _ => true
  | .ok _ => false

/-- The `kpack` selection of `generate` (source lines 1969-1989):
`kpack = 1` by default; a bf16 input requires a bf16 weight and f32
output and selects `kpack = 2`; an s8/u8 input requires an s8 weight and
s32 output and selects `kpack = 4`; any violation is a fatal
`COMPILE_ASSERT` before the loop nest is built. -/
def kpackOf (dtypeInput dtypeWeight dtypeOutput : ScDtype) : KpackResult :=
  if dtypeInput = .bf16 then
    if dtypeWeight ≠ .bf16 then .fatal .weightNotBf16
    else if dtypeOutput ≠ .f32 then .fatal .outputNotF32
    else .ok 2
  else if dtypeInput = .s8 ∨ dtypeInput = .u8 then
    if dtypeWeight ≠ .s8 then .fatal .weightNotS8
    else if dtypeOutput ≠ .s32 then .fatal .outputNotS32
    else .ok 4
  else .ok 1

/-- C10: `generate` accepts only matched data-type triples: bf16 input
requires bf16 weight and f32 output (`kpack = 2`); u8/s8 input requires
s8 weight and s32 output (`kpack = 4`); any other pairing with a bf16 or
int8 input fails fatally; all remaining input types get `kpack = 1`. -/
theorem c10_generate_dtype (din dw dout : ScDtype) :
    (din = .bf16 →
      ((kpackOf din dw dout = KpackResult.ok 2) ↔ (dw = .bf16 ∧ dout = .f32)) ∧
      (¬(dw = .bf16 ∧ dout = .f32) → kpackFatal (kpackOf din dw dout) = true)) ∧
    ((din = .u8 ∨ din = .s8) →
      ((kpackOf din dw dout = KpackResult.ok 4) ↔ (dw = .s8 ∧ dout = .s32)) ∧
      (¬(dw = .s8 ∧ dout = .s32) → kpackFatal (kpackOf din dw dout) = true)) ∧
    ((din ≠ .bf16 ∧ din ≠ .u8 ∧ din ≠ .s8) → kpackOf din dw dout = KpackResult.ok 1) := by
  cases din <;> cases dw <;> cases dout <;>
    exact ⟨by decide, by decide, by decide⟩

/-- C10 witness: the three accepting shapes and one rejected mix. -/
theorem c10_generate_dtype_witness :
    kpackOf .bf16 .bf16 .f32 = .ok 2 ∧
    kpackOf .u8 .s8 .s32 = .ok 4 ∧
    kpackOf .f32 .f32 .f32 = .ok 1 ∧
    kpackFatal (kpackOf .bf16 .s8 .f32) = true :=
  ⟨((c10_generate_dtype .bf16 .bf16 .f32).1 rfl).1.mpr ⟨rfl, rfl⟩,
    ((c10_generate_dtype .u8 .s8 .s32).2.1 (Or.inl rfl)).1.mpr ⟨rfl, rfl⟩,
    (c10_generate_dtype .f32 .f32 .f32).2.2 ⟨by decide, by decide, by decide⟩,
    ((c10_generate_dtype .bf16 .s8 .f32).1 rfl).2 (by decide)⟩

/-- Raw operator inputs to `gen_nested_conv_fwd_t`'s constructor: the
plain dims of input, weight and output, the stride and begin padding,
and the input element type. -/
structure ConvProblem where
  inputDims : List Nat
  weightDims : List Nat
  outDims : List Nat
  stride : List Nat
  padsBegin : List Nat
  inputDtype : ScDtype

/-- The `COMPILE_ASSERT` failures of the constructor, grouped by the
spec's error taxonomy (§7): rank/size/channel mismatches are
`ShapeError`s; non-zero padding and non-2D input are
`UnsupportedFeatureError`s. -/
inductive ConvErr where
  | shapeMismatch
  | unsupportedPadding
  | unsupportedNon2D
deriving DecidableEq

/-- Which constructor failures the spec classifies as
`UnsupportedFeatureError`. -/
def ConvErr.isUnsupportedFeature : ConvErr → Bool
  | .unsupportedPadding => true
  | .unsupportedNon2D => true
  | .shapeMismatch => false

/-- The problem descriptor built by the constructor (source lines
258-324): normalized shape parameters and the derived strategy flags. -/
structure ConvDesc where
  ndims : Nat
  mb : Nat
  ic : Nat
  idepth : Nat
  ih : Nat
  iw : Nat
  oc : Nat
  kd : Nat
  kh : Nat
  kw : Nat
  od : Nat
  oh : Nat
  ow : Nat
  pd : Nat
  ph : Nat
  pw : Nat
  sd : Nat
  sh : Nat
  sw : Nat
  actualOs : Nat
  numElemsSkipPerOw : Nat
  adjOs : Nat
  is3d : Bool
  is1d : Bool
  is1x1Conv : Bool
  tryOsBlocking : Bool
  useNested2d : Bool
deriving DecidableEq

/-- Result of constructing a `gen_nested_conv_fwd_t`. -/
inductive ConstructResult where
  | ok (d : ConvDesc)
  | err (e : ConvErr)
deriving DecidableEq

/-- The constructor `gen_nested_conv_fwd_t::gen_nested_conv_fwd_t`
(source lines 229-325): rank/size/channel validation, field
normalization, then the hard rejection of padding and of non-2D input,
in source order. List reads out of range are modelled with `getD _ 0`
(the C++ `operator[]` would be out-of-range only for 1-D inputs with a
2-entry `pads_begin`, where the source reads `pads_begin[ndims_ - 4]`).
The format-derived `blocking_input_` / `blocking_output_` flags are not
part of the descriptor model; the emitter models below fix the
non-blocked (plain) layouts. -/
def constructGen (p : ConvProblem) : ConstructResult :=
  if (p.inputDims.length = 3 ∨ p.inputDims.length = 4 ∨ p.inputDims.length = 5) then
    if ((p.weightDims.length = 3 ∨ p.weightDims.length = 4 ∨ p.weightDims.length = 5) ∧
        p.weightDims.length = p.inputDims.length) then
      if ((p.outDims.length = 3 ∨ p.outDims.length = 4 ∨ p.outDims.length = 5) ∧
          p.outDims.length = p.inputDims.length) then
        let ndims := p.inputDims.length
        if (if ndims = 5 then p.padsBegin.length = 1 ∨ p.padsBegin.length = 3
            else p.padsBegin.length = 1 ∨ p.padsBegin.length = 2) then
          if (if ndims = 5 then p.stride.length = 1 ∨ p.stride.length = 3
              else p.stride.length = 1 ∨ p.stride.length = 2) then
            if (p.inputDims.getD 1 0 = p.weightDims.getD 1 0) then
              let mb := p.inputDims.getD 0 0
              let ic := p.inputDims.getD 1 0
              let idepth := if ndims = 5 then p.inputDims.getD 2 0 else 1
              let ih := if ndims = 3 then 1 else p.inputDims.getD (ndims - 2) 0
              let iw := p.inputDims.getD (ndims - 1) 0
              let oc := p.weightDims.getD 0 0
              let kd := if ndims = 5 then p.weightDims.getD 2 0 else 1
              let kh := if ndims = 3 then 1 else p.weightDims.getD (ndims - 2) 0
              let kw := p.weightDims.getD (ndims - 1) 0
              let od := if ndims = 5 then p.outDims.getD 2 0 else 1
              let oh := if ndims = 3 then 1 else p.outDims.getD (ndims - 2) 0
              let ow := p.outDims.getD (ndims - 1) 0
              let is1x1 := kd = 1 ∧ kh = 1 ∧ kw = 1
              let pd := if ndims = 5 then p.padsBegin.getD 0 0 else 0
              let ph :=
                if p.padsBegin.length > 1 then p.padsBegin.getD (ndims - 4) 0
                else if ndims = 3 then 0 else p.padsBegin.getD 0 0
              let pw :=
                if p.padsBegin.length > 1 then p.padsBegin.getD (ndims - 3) 0
                else p.padsBegin.getD 0 0
              let sd := if ndims = 5 then p.stride.getD 0 0 else 1
              let sh :=
                if p.stride.length > 1 then p.stride.getD (p.stride.length - 2) 0
                else if ndims = 3 then 1 else p.stride.getD 0 0
              let sw :=
                if p.stride.length > 1 then p.stride.getD (p.stride.length - 1) 0
                else p.stride.getD 0 0
              let actualOs := oh * ow
              let numElemsSkipPerOw := ((kw - 1) / sw) * sh + (sh - 1) * ow
              let adjOs := min (actualOs + numElemsSkipPerOw * (oh - 1))
                ((ih + 2 * ph) * (iw + 2 * pw))
              let isInt8 := p.inputDtype = ScDtype.u8 ∨ p.inputDtype = ScDtype.s8
              if (pd > 0 ∨ ph > 0 ∨ pw > 0) then .err .unsupportedPadding
              else if ¬(ndims ≠ 3 ∧ ndims ≠ 5) then .err .unsupportedNon2D
              else
                .ok {
                  ndims := ndims, mb := mb, ic := ic, idepth := idepth,
                  ih := ih, iw := iw, oc := oc, kd := kd, kh := kh, kw := kw,
                  od := od, oh := oh, ow := ow, pd := pd, ph := ph, pw := pw,
                  sd := sd, sh := sh, sw := sw,
                  actualOs := actualOs,
                  numElemsSkipPerOw := numElemsSkipPerOw,
                  adjOs := adjOs,
                  is3d := decide (ndims = 5), is1d := decide (ndims = 3),
                  is1x1Conv := decide is1x1,
                  tryOsBlocking := decide ((¬ is1x1) ∧ isInt8),
                  useNested2d := true }
            else .err .shapeMismatch
          else .err .shapeMismatch
        else .err .shapeMismatch
      else .err .shapeMismatch
    else .err .shapeMismatch
  else .err .shapeMismatch

/-- C4: any input whose `pads_begin` contains a non-zero entry is
rejected by the constructor with an `UnsupportedFeatureError`-class
`COMPILE_ASSERT` (either the padding assertion at source line 320, or —
for a 1-D problem whose only non-zero pad entry the code never reads —
the 2-D-only assertion at line 323), before any emitter can run. -/
theorem c4_padding_rejected (p : ConvProblem)
    (h1 : p.inputDims.length = 3 ∨ p.inputDims.length = 4 ∨ p.inputDims.length = 5)
    (h2 : (p.weightDims.length = 3 ∨ p.weightDims.length = 4 ∨ p.weightDims.length = 5) ∧
      p.weightDims.length = p.inputDims.length)
    (h3 : (p.outDims.length = 3 ∨ p.outDims.length = 4 ∨ p.outDims.length = 5) ∧
      p.outDims.length = p.inputDims.length)
    (h4 : if p.inputDims.length = 5 then p.padsBegin.length = 1 ∨ p.padsBegin.length = 3
      else p.padsBegin.length = 1 ∨ p.padsBegin.length = 2)
    (h5 : if p.inputDims.length = 5 then p.stride.length = 1 ∨ p.stride.length = 3
      else p.stride.length = 1 ∨ p.stride.length = 2)
    (h6 : p.inputDims.getD 1 0 = p.weightDims.getD 1 0)
    (hpad : ∃ q ∈ p.padsBegin, q ≠ 0) :
    ∃ e, constructGen p = .err e ∧ e.isUnsupportedFeature = true := by
  rw [constructGen, if_pos h1, if_pos h2, if_pos h3, if_pos h4, if_pos h5, if_pos h6]
  obtain ⟨q, hqmem, hqne⟩ := hpad
  have hqpos : 0 < q := Nat.pos_of_ne_zero hqne
  rcases h1 with hlen | hlen | hlen
  · -- 1-D input: the 2-entry case may miss the padding assert (the
    -- C++ reads `pads_begin[ndims_ - 4]`, out of range), but then the
    -- 2-D-only assert fires.
    have h4' : p.padsBegin.length = 1 ∨ p.padsBegin.length = 2 := by
      rw [hlen] at h4
      simpa using h4
    rcases h4' with hl | hl
    · obtain ⟨a, ha⟩ := List.length_eq_one.mp hl
      have hq : q = a := by
        rw [ha] at hqmem
        simpa using hqmem
      subst hq
      refine ⟨.unsupportedPadding, ?_, rfl⟩
      rw [ha, hlen]
      simp [hqpos]
    · obtain ⟨a, b, hab⟩ : ∃ a b, p.padsBegin = [a, b] := by
        match p.padsBegin, hl with
        | [a, b], _ => exact ⟨a, b, rfl⟩
      by_cases hazero : a = 0
      · refine ⟨.unsupportedNon2D, ?_, rfl⟩
        rw [hab, hlen, hazero]
        simp
      · refine ⟨.unsupportedPadding, ?_, rfl⟩
        rw [hab, hlen]
        simp [Nat.pos_of_ne_zero hazero]
  · -- 2-D input: the padding assert necessarily fires.
    have h4' : p.padsBegin.length = 1 ∨ p.padsBegin.length = 2 := by
      rw [hlen] at h4
      simpa using h4
    refine ⟨.unsupportedPadding, ?_, rfl⟩
    rcases h4' with hl | hl
    · obtain ⟨a, ha⟩ := List.length_eq_one.mp hl
      have hq : q = a := by
        rw [ha] at hqmem
        simpa using hqmem
      subst hq
      rw [ha, hlen]
      simp [hqpos]
    · obtain ⟨a, b, hab⟩ : ∃ a b, p.padsBegin = [a, b] := by
        match p.padsBegin, hl with
        | [a, b], _ => exact ⟨a, b, rfl⟩
      rw [hab] at hqmem
      rw [hab, hlen]
      rcases List.mem_pair.mp hqmem with h | h <;> subst h
      · simp [hqpos]
      · simp [hqpos]
  · -- 3-D input: the padding assert necessarily fires.
    have h4' : p.padsBegin.length = 1 ∨ p.padsBegin.length = 3 := by
      rw [hlen] at h4
      simpa using h4
    refine ⟨.unsupportedPadding, ?_, rfl⟩
    rcases h4' with hl | hl
    · obtain ⟨a, ha⟩ := List.length_eq_one.mp hl
      have hq : q = a := by
        rw [ha] at hqmem
        simpa using hqmem
      subst hq
      rw [ha, hlen]
      simp [hqpos]
    · obtain ⟨a, b, c, habc⟩ : ∃ a b c, p.padsBegin = [a, b, c] := by
        match p.padsBegin, hl with
        | [a, b, c], _ => exact ⟨a, b, c, rfl⟩
      rw [habc] at hqmem
      rw [habc, hlen]
      rcases List.mem_cons.mp hqmem with h | h
      · subst h
        simp [hqpos]
      · rcases List.mem_pair.mp h with h | h <;> subst h
        · simp [hqpos]
        · simp [hqpos]

/-- C4 witness: a 2-D problem with `pads_begin = [1, 1]` is rejected
with the padding `UnsupportedFeatureError`. -/
theorem c4_padding_rejected_witness :
    (∃ q ∈ [1, 1], q ≠ 0) ∧
    ∃ e, constructGen
        { inputDims := [1, 64, 56, 56], weightDims := [64, 64, 3, 3],
          outDims := [1, 64, 56, 56], stride := [1, 1],
          padsBegin := [1, 1], inputDtype := ScDtype.f32 } = .err e ∧
      e.isUnsupportedFeature = true :=
  ⟨⟨1, by decide, by decide⟩,
    c4_padding_rejected _ (by decide) (by decide) (by decide) (by decide)
      (by decide) (by decide) ⟨1, by decide, by decide⟩⟩

/-- The named outer `for_loop`s the emitters hand to the scheduler. -/
inductive LoopAxis where
  | lpbs
  | lph
  | lpw
  | lpoc
  | lpic
  | lps
  | lok
deriving DecidableEq

/-- Loop list produced by `compute_1x1_pack_input_nested`
(source line 765): `{lpbs, lph, lpw, lpoc, lpic}`. -/
def loops1x1PackInput : List LoopAxis := [.lpbs, .lph, .lpw, .lpoc, .lpic]

/-- Loop list produced by `compute_1x1_no_pack_input_nested`
(source line 1166): `{lpbs, lph, lpw, lpoc, lpic}`. -/
def loops1x1NoPackInput : List LoopAxis := [.lpbs, .lph, .lpw, .lpoc, .lpic]

/-- Loop list produced by `compute_conv_no_padding_os_blocking_nested`
(source line 1458): `{lpbs, lps, lpoc, lpic, lok}`. -/
def loopsOsBlocking : List LoopAxis := [.lpbs, .lps, .lpoc, .lpic, .lok]

/-- Loop list produced by `compute_conv_no_padding_nested`
(source line 1908): `{lpbs, lph, lpw, lpoc, lpic, lok}`. -/
def loopsNoPadding : List LoopAxis := [.lpbs, .lph, .lpw, .lpoc, .lpic, .lok]

/-- The scheduler `gen_nested_conv_fwd_t::schedule_loops` (source lines 1911-1933),
under `use_nested_2d_` (always true after construction): recompute
`pack_rows` from the configured `im_w_block` and `ow`; on the
os-blocking path assert exactly 5 loops and fuse
`lok → lpbs → lps → lpoc → lpic`; otherwise assert exactly 6 loops and
fuse `lok → lpbs → lph → lpw → lpoc → lpic`. A failed assertion is
`none`; otherwise the fused loop chain in fusion order. -/
def scheduleLoops (tryOsBlocking : Bool) (imWBlock ow : Nat)
    (fors : List LoopAxis) : Option (List LoopAxis) :=
  let packRows := 0 < imWBlock ∧ ow % imWBlock ≠ 0
  if tryOsBlocking = true ∧ packRows then
    if fors.length = 5 then
      some [fors.getD 4 .lpbs, fors.getD 0 .lpbs, fors.getD 1 .lpbs,
        fors.getD 2 .lpbs, fors.getD 3 .lpbs]
    else none
  else
    if fors.length = 6 then
      some [fors.getD 5 .lpbs, fors.getD 0 .lpbs, fors.getD 1 .lpbs,
        fors.getD 2 .lpbs, fors.getD 3 .lpbs, fors.getD 4 .lpbs]
    else none

/-- C6: the two no-padding emitters produce loop lists of exactly the
length `schedule_loops` requires and are fused in the fixed order
outer-split, batch, height, width, output-channel, input-channel (the
os axis standing in for the spatial axes), but both 1×1 emitters
produce 5 loops where `schedule_loops`' non-os branch checks
`fors.size() == 6` (while its own message text says 5), so every 1×1
plan is rejected by the scheduler's assertion. -/
theorem c6_schedule_loops_evaluation :
    loops1x1PackInput.length = 5 ∧
    loops1x1NoPackInput.length = 5 ∧
    scheduleLoops false 4 8 loops1x1PackInput = none ∧
    scheduleLoops false 4 8 loops1x1NoPackInput = none ∧
    scheduleLoops true 3 8 loopsOsBlocking
      = some [.lok, .lpbs, .lps, .lpoc, .lpic] ∧
    scheduleLoops false 4 8 loopsNoPadding
      = some [.lok, .lpbs, .lph, .lpw, .lpoc, .lpic] ∧
    scheduleLoops true 4 8 loopsNoPadding
      = some [.lok, .lpbs, .lph, .lpw, .lpoc, .lpic] := by
  refine ⟨rfl, rfl, ?_, ?_, ?_, ?_, ?_⟩ <;> decide

/-- The fields of `nested_conv_fwd_config_t`, with the source's field
names. `pack_input` is not assigned by `get_default_config` and stays at
its default. -/
structure NestedConvFwdConfig where
  K_block : Nat
  C_block : Nat
  pack_input : Nat
  bs_threads : Nat
  oc_threads : Nat
  im_oc_block : Nat
  im_ic_block : Nat
  h_threads : Nat
  w_threads : Nat
  h_block : Nat
  w_block : Nat
  im_h_block : Nat
  im_w_block : Nat
deriving DecidableEq

/-- The shape fields of the generator that `get_default_config` reads. -/
structure PlannerInput where
  mb : Nat
  ic : Nat
  oc : Nat
  oh : Nat
  ow : Nat
  sw : Nat
  actualOs : Nat
  adjOs : Nat
  is1x1Conv : Bool
  tryOsBlocking : Bool
deriving DecidableEq

/-- Stage 1 of `get_default_config` (source lines 72-91): thread
geometry and initial micro/outer blocks. -/
def planInit (g : PlannerInput) (numThreads : Nat) : NestedConvFwdConfig :=
  { K_block := 0, C_block := 0, pack_input := 0,
    bs_threads := bsThreadsSel g.mb numThreads g.oc,
    oc_threads := numThreads / bsThreadsSel g.mb numThreads g.oc,
    h_threads := 1, w_threads := 1,
    im_oc_block := getBlocksBack g.oc 128,
    im_ic_block := getBlocksBack g.ic 128,
    im_h_block := 1, im_w_block := g.ow,
    h_block := g.oh, w_block := g.ow }

/-- Stage 2 of `get_default_config` (source lines 92-115): replace
`im_oc_block` by a suitable divisor when the micro-block count does not
distribute evenly over the output-channel threads. -/
def planAdjustImOc (g : PlannerInput) (cfg : NestedConvFwdConfig) :
    NestedConvFwdConfig :=
  if cfg.oc_threads ≠ 1 ∧ (g.oc / cfg.im_oc_block) % cfg.oc_threads ≠ 0 then
    { cfg with im_oc_block :=
        getSuitableBlock g.oc cfg.im_oc_block (getSplits g.oc) cfg.oc_threads }
  else cfg

/-- Stage 3 of `get_default_config` (source lines 117-167), the
`try_os_blocking_` block. `osBlocks` stands for
`get_os_blocks(ow_, adj_os_)`, whose row-blocking table lives outside
the extracted sources (the spec describes it only as a table indexed by
`ow` and the adjusted output size), so it is passed in as a
parameter. -/
def planOsBlocking (g : PlannerInput) (numThreads : Nat) (useAmx : Bool)
    (osBlocks : List Nat) (cfg : NestedConvFwdConfig) : NestedConvFwdConfig :=
  if g.tryOsBlocking = true then
    let cfg : NestedConvFwdConfig := { cfg with im_w_block := osBlocks.getLastD 0 }
    let cfg : NestedConvFwdConfig :=
      if g.ow > 28 ∧ useAmx = true then
        { cfg with im_w_block := getBlocksBack g.ow 256 }
      else
        let found := (osBlocks.reverse.find? (fun b => decide (b < 800))).getD
          cfg.im_w_block
        { cfg with im_w_block := found }
    let packRows := 0 < cfg.im_w_block ∧ g.ow % cfg.im_w_block ≠ 0
    let cfg : NestedConvFwdConfig := { cfg with w_block := if packRows then g.adjOs else g.actualOs }
    let cfg : NestedConvFwdConfig :=
      if g.mb = 1 ∧ numThreads = 4 then
        let cfg : NestedConvFwdConfig := { cfg with im_w_block := getBlocksBack g.ow 256 }
        let cfg : NestedConvFwdConfig :=
          if g.oc ≥ 512 then
            { cfg with
                bs_threads := 1, h_threads := 1, w_threads := 1,
                oc_threads := numThreads }
          else
            { cfg with
                bs_threads := 1, oc_threads := 1,
                h_threads := numThreads, w_threads := 1 }
        let cfg : NestedConvFwdConfig :=
          let blk := min (getBlocksBack g.oc 128) (g.oc / cfg.oc_threads)
          { cfg with im_oc_block := blk }
        let wb := divideAndCeil (divideAndCeil g.actualOs cfg.im_w_block)
          cfg.w_threads * cfg.im_w_block
        { cfg with w_block := wb }
      else cfg
    let packRows2 := 0 < cfg.im_w_block ∧ g.ow % cfg.im_w_block ≠ 0
    if ¬ packRows2 then
      let cfg : NestedConvFwdConfig := { cfg with im_h_block := 1 }
      let cfg : NestedConvFwdConfig :=
        let hb := if cfg.h_threads = 1 then g.oh
          else divideAndCeil (divideAndCeil g.oh cfg.im_h_block)
            cfg.h_threads * cfg.im_h_block
        { cfg with h_block := hb }
      let wb := if cfg.w_threads = 1 then g.ow
        else divideAndCeil (divideAndCeil g.ow cfg.im_w_block)
          cfg.w_threads * cfg.im_w_block
      { cfg with w_block := wb }
    else cfg
  else cfg

/-- Stage 4 of `get_default_config` (source lines 169-213), the
`is_1x1_conv_` block. -/
def plan1x1 (g : PlannerInput) (numThreads : Nat) (cfg : NestedConvFwdConfig) :
    NestedConvFwdConfig :=
  if g.is1x1Conv = true then
    let cfg : NestedConvFwdConfig :=
      if g.ic ≥ 256 ∧ g.oc ≥ 256 ∧ g.oh ≤ 14 then
        { cfg with im_h_block := g.oh }
      else
        let cfg : NestedConvFwdConfig := { cfg with im_h_block := 1 }
        if g.oh ≥ 28 ∧ cfg.bs_threads % 2 = 0 then
          { cfg with h_threads := 2, bs_threads := cfg.bs_threads / 2 }
        else cfg
    let cfg : NestedConvFwdConfig :=
      if g.mb = 1 ∧ numThreads = 4 then
        let cfg : NestedConvFwdConfig := { cfg with im_w_block := g.ow }
        if g.oc ≥ 512 ∧ g.ic ≥ 512 then
          { cfg with
              bs_threads := 1, h_threads := 1, w_threads := 1,
              oc_threads := numThreads }
        else
          { cfg with
              bs_threads := 1, oc_threads := 1,
              h_threads := numThreads, w_threads := 1, im_h_block := 1 }
      else cfg
    let cfg : NestedConvFwdConfig :=
      let blk := min (getBlocksBack g.oc 128) (g.oc / cfg.oc_threads)
      { cfg with im_oc_block := blk }
    let cfg : NestedConvFwdConfig :=
      if cfg.im_h_block = 1 ∧ cfg.im_oc_block = 128 ∧ cfg.im_ic_block = 128 then
        if g.ow ≥ 56 ∧ g.ow % 2 = 0 then
          { cfg with im_w_block := g.ow / 2 }
        else if g.sw = 1 ∧ g.ow ≥ 28 ∧ g.oc ≥ g.ic ∧ g.oc ≥ 512 then
          { cfg with im_w_block := g.ow / 2 }
        else
          { cfg with im_w_block := g.ow }
      else cfg
    let hb := if cfg.h_threads = 1 then g.oh
      else divideAndCeil (divideAndCeil g.oh cfg.im_h_block)
        cfg.h_threads * cfg.im_h_block
    { cfg with h_block := hb }
  else cfg

/-- Stage 5 of `get_default_config` (source lines 215-224): the outer
`K_block` / `C_block` with the divisor fallback (`ic_threads` is the
constant 1). -/
def planOuterBlocks (g : PlannerInput) (cfg : NestedConvFwdConfig) :
    NestedConvFwdConfig :=
  let icThreads := 1
  let cfg : NestedConvFwdConfig :=
    let kb := divideAndCeil (divideAndCeil g.oc cfg.im_oc_block) cfg.oc_threads
      * cfg.im_oc_block
    { cfg with K_block := kb }
  let cfg : NestedConvFwdConfig :=
    if g.oc % cfg.K_block ≠ 0 then { cfg with K_block := cfg.im_oc_block } else cfg
  let cfg : NestedConvFwdConfig :=
    let cb := divideAndCeil (divideAndCeil g.ic cfg.im_ic_block) icThreads
      * cfg.im_ic_block
    { cfg with C_block := cb }
  if g.ic % cfg.C_block ≠ 0 then { cfg with C_block := cfg.im_ic_block } else cfg

/-- The planner `gen_nested_conv_fwd_t::get_default_config` (source lines 67-227)
under `use_nested_2d_` (always true after construction): the five
stages in source order. The machine is `numThreads`
(`runtime_config_t::get().get_num_threads()`) and `useAmx`
(`ctx->use_amx()`). -/
def getDefaultConfig (g : PlannerInput) (numThreads : Nat) (useAmx : Bool)
    (osBlocks : List Nat) : NestedConvFwdConfig :=
  planOuterBlocks g
    (plan1x1 g numThreads
      (planOsBlocking g numThreads useAmx osBlocks
        (planAdjustImOc g (planInit g numThreads))))

/-- The failing planner input for C2: a valid zero-padding 1×1 problem,
`mb = 3`, `ic = 64`, `oc = 96`, `oh = ow = 14`, stride 1, on a 5-thread
machine. -/
def c2FailingInput : PlannerInput :=
  { mb := 3, ic := 64, oc := 96, oh := 14, ow := 14, sw := 1,
    actualOs := 196, adjOs := 196, is1x1Conv := true, tryOsBlocking := false }

/-- C2: at the failing input the default configuration takes
`im_oc_block = min(96, 96 / 5) = 19` on the 1×1 path, hence
`K_block = 19`; the micro-block divisibility `K_block % im_oc_block = 0`
holds, but `K_block` does not divide `oc = 96` — contradicting both the
claim and `generate`'s own assertion `oc_ % K_block == 0` (source lines
1954-1956). `C_block` behaves as claimed here. -/
theorem c2_code_evaluation :
    (getDefaultConfig c2FailingInput 5 false []).im_oc_block = 19 ∧
    (getDefaultConfig c2FailingInput 5 false []).K_block = 19 ∧
    (getDefaultConfig c2FailingInput 5 false []).K_block %
      (getDefaultConfig c2FailingInput 5 false []).im_oc_block = 0 ∧
    c2FailingInput.oc % (getDefaultConfig c2FailingInput 5 false []).K_block ≠ 0 ∧
    (getDefaultConfig c2FailingInput 5 false []).C_block = 64 ∧
    c2FailingInput.ic % (getDefaultConfig c2FailingInput 5 false []).C_block = 0 := by
  have h1 : planInit c2FailingInput 5 =
      { K_block := 0, C_block := 0, pack_input := 0,
        bs_threads := 1, oc_threads := 5,
        im_oc_block := 96, im_ic_block := 64,
        h_threads := 1, w_threads := 1,
        im_h_block := 1, im_w_block := 14,
        h_block := 14, w_block := 14 } := by decide
  have h2 : planAdjustImOc c2FailingInput
      { K_block := 0, C_block := 0, pack_input := 0,
        bs_threads := 1, oc_threads := 5,
        im_oc_block := 96, im_ic_block := 64,
        h_threads := 1, w_threads := 1,
        im_h_block := 1, im_w_block := 14,
        h_block := 14, w_block := 14 } =
      { K_block := 0, C_block := 0, pack_input := 0,
        bs_threads := 1, oc_threads := 5,
        im_oc_block := 96, im_ic_block := 64,
        h_threads := 1, w_threads := 1,
        im_h_block := 1, im_w_block := 14,
        h_block := 14, w_block := 14 } := by decide
  have h3 : planOsBlocking c2FailingInput 5 false []
      { K_block := 0, C_block := 0, pack_input := 0,
        bs_threads := 1, oc_threads := 5,
        im_oc_block := 96, im_ic_block := 64,
        h_threads := 1, w_threads := 1,
        im_h_block := 1, im_w_block := 14,
        h_block := 14, w_block := 14 } =
      { K_block := 0, C_block := 0, pack_input := 0,
        bs_threads := 1, oc_threads := 5,
        im_oc_block := 96, im_ic_block := 64,
        h_threads := 1, w_threads := 1,
        im_h_block := 1, im_w_block := 14,
        h_block := 14, w_block := 14 } := by decide
  have h4 : plan1x1 c2FailingInput 5
      { K_block := 0, C_block := 0, pack_input := 0,
        bs_threads := 1, oc_threads := 5,
        im_oc_block := 96, im_ic_block := 64,
        h_threads := 1, w_threads := 1,
        im_h_block := 1, im_w_block := 14,
        h_block := 14, w_block := 14 } =
      { K_block := 0, C_block := 0, pack_input := 0,
        bs_threads := 1, oc_threads := 5,
        im_oc_block := 19, im_ic_block := 64,
        h_threads := 1, w_threads := 1,
        im_h_block := 1, im_w_block := 14,
        h_block := 14, w_block := 14 } := by decide
  have h5 : planOuterBlocks c2FailingInput
      { K_block := 0, C_block := 0, pack_input := 0,
        bs_threads := 1, oc_threads := 5,
        im_oc_block := 19, im_ic_block := 64,
        h_threads := 1, w_threads := 1,
        im_h_block := 1, im_w_block := 14,
        h_block := 14, w_block := 14 } =
      { K_block := 19, C_block := 64, pack_input := 0,
        bs_threads := 1, oc_threads := 5,
        im_oc_block := 19, im_ic_block := 64,
        h_threads := 1, w_threads := 1,
        im_h_block := 1, im_w_block := 14,
        h_block := 14, w_block := 14 } := by decide
  have hall : getDefaultConfig c2FailingInput 5 false [] =
      { K_block := 19, C_block := 64, pack_input := 0,
        bs_threads := 1, oc_threads := 5,
        im_oc_block := 19, im_ic_block := 64,
        h_threads := 1, w_threads := 1,
        im_h_block := 1, im_w_block := 14,
        h_block := 14, w_block := 14 } := by
    rw [getDefaultConfig, h1, h2, h3, h4, h5]
  rw [hall]
  refine ⟨rfl, rfl, rfl, by decide, rfl, rfl⟩

/-- The parameters `compute_conv_no_padding_os_blocking_nested` reads:
problem shape, the `os` argument, the configuration fields it uses,
and the machine values feeding the `oc_split` heuristic
(`weightSize` is the product of the weight blocking dims times the
element size, `l2CacheSize` is `ctx->machine_.cpu_flags_.getDCacheSize(2)`). -/
structure OsEmitterInput where
  mb : Nat
  ic : Nat
  oc : Nat
  os : Nat
  bs_threads : Nat
  s_threads : Nat
  oc_threads : Nat
  oc_block : Nat
  s_block : Nat
  ic_block : Nat
  im_oc_block : Nat
  im_ic_block : Nat
  im_s_block : Nat
  nthreads : Nat
  weightSize : Nat
  l2CacheSize : Nat
deriving DecidableEq

/-- The value `bs_used_threads` of the os-blocking emitter (source line 1207-1208);
computed there but never used as a loop guard. -/
def osBsUsedThreads (e : OsEmitterInput) : Nat :=
  (blockSplit e.mb e.bs_threads).1

/-- The value `os_used_threads` of the os-blocking emitter (source line 1211). -/
def osSUsedThreads (e : OsEmitterInput) : Nat :=
  (blockSplit (divideAndCeil e.os e.s_block) e.s_threads).1

/-- The value `oc_used_threads` of the os-blocking emitter (source line 1209). -/
def osOcUsedThreads (e : OsEmitterInput) : Nat :=
  (blockSplit (divideAndCeil e.oc e.oc_block) e.oc_threads).1

/-- The value `ic_used_threads` of the os-blocking emitter (source line 1213;
`ic_threads` is the constant 1). -/
def osIcUsedThreads (e : OsEmitterInput) : Nat :=
  (blockSplit (divideAndCeil e.ic e.ic_block) 1).1

/-- The value `oc_split` as computed inside the os-blocking emitter (source lines
1230-1249), via the shared heuristic. -/
def osOcSplit (e : OsEmitterInput) : Nat :=
  ocSplitHeuristic e.mb e.nthreads e.oc_threads
    (blockSplit (divideAndCeil e.oc e.oc_block) e.oc_threads).2.1
    e.oc_block e.im_oc_block e.weightSize e.l2CacheSize

/-- One `brgemm` micro-kernel invocation of the os-blocking emitter,
identified by its loop indices (source lines 1251-1372). -/
structure OsKernelCall where
  outerK : Nat
  pbs : Nat
  ps : Nat
  poc : Nat
  pic : Nat
  oS : Nat
  oOc : Nat
  oIc : Nat
  iOc : Nat
  iS : Nat
deriving DecidableEq

/-- The micro-kernel invocations of
`compute_conv_no_padding_os_blocking_nested` (source lines 1251-1372):
the loop nest `outer_k → pbs → ps → poc → pic`, the single-core guard
`ps < os_used_threads && poc < oc_used_threads && pic < ic_used_threads`
(no guard mentions `pbs` or `bs_used_threads`), the per-thread block
loops with their `cond` select guards, the `oc` bound-check, and the
innermost `i_s` loop holding the `brgemm` call. -/
def kernelCallsOsBlocking (e : OsEmitterInput) : List OsKernelCall :=
  let sSplit := blockSplit (divideAndCeil e.os e.s_block) e.s_threads
  let ocSplitRes := blockSplit (divideAndCeil e.oc e.oc_block) e.oc_threads
  let icSplitRes := blockSplit (divideAndCeil e.ic e.ic_block) 1
  let osUsed := sSplit.1
  let sPt := sSplit.2.1
  let sTail := sSplit.2.2
  let ocUsed := ocSplitRes.1
  let ocPt := ocSplitRes.2.1
  let ocTail := ocSplitRes.2.2
  let icUsed := icSplitRes.1
  let icPt := icSplitRes.2.1
  let icTail := icSplitRes.2.2
  let ocSplit := osOcSplit e
  (List.range ocSplit).flatMap fun outerK =>
    (List.range e.mb).flatMap fun pbs =>
      (List.range e.s_threads).flatMap fun ps =>
        (List.range e.oc_threads).flatMap fun poc =>
          (List.range 1).flatMap fun pic =>
            if ps < osUsed ∧ poc < ocUsed ∧ pic < icUsed then
              let sNumBlock : Int := if (ps : Int) < (osUsed : Int) - 1 then sPt else sTail
              let ocNumBlock : Int :=
                if (poc : Int) < (ocUsed : Int) - 1 then ocPt else ocTail
              let icNumBlock : Int :=
                if (pic : Int) < (icUsed : Int) - 1 then icPt else icTail
              (List.range sPt).flatMap fun oS =>
                (List.range ocPt).flatMap fun oOc =>
                  (List.range icPt).flatMap fun oIc =>
                    if (oS : Int) < sNumBlock ∧ (oOc : Int) < ocNumBlock ∧
                        (oIc : Int) < icNumBlock then
                      (List.range (e.oc_block / e.im_oc_block / ocSplit)).flatMap fun iOc =>
                        let ocIdx := poc * ocPt * e.oc_block / e.im_oc_block
                          + oOc * e.oc_block / e.im_oc_block
                          + outerK * e.oc_block / e.im_oc_block / ocSplit + iOc
                        if ocIdx * e.im_oc_block < e.oc then
                          (List.range (e.s_block / e.im_s_block)).map fun iS =>
                            { outerK := outerK, pbs := pbs, ps := ps, poc := poc,
                              pic := pic, oS := oS, oOc := oOc, oIc := oIc,
                              iOc := iOc, iS := iS }
                        else []
                    else []
            else []

/-- The concrete os-blocking emitter input exhibiting unguarded batch
iterations: `mb = 4` with `bs_threads = 2` and a minimal remaining
configuration. -/
def c5Input : OsEmitterInput :=
  { mb := 4, ic := 1, oc := 1, os := 1,
    bs_threads := 2, s_threads := 1, oc_threads := 1,
    oc_block := 1, s_block := 1, ic_block := 1,
    im_oc_block := 1, im_ic_block := 1, im_s_block := 1,
    nthreads := 4, weightSize := 0, l2CacheSize := 1 }

/-- C5 counterexample: the os-blocking emitter computes
`bs_used_threads = block_split(mb, bs_threads) = 2` but guards no batch
index with it — a micro-kernel call runs with batch thread index
`pbs = 3 ≥ 2`, so the batch axis is not guarded by
`thread_index < used_threads_for_that_axis`. -/
theorem c5_claim_counterexample :
    osBsUsedThreads c5Input = 2 ∧
    c5Input.mb = 4 ∧
    (kernelCallsOsBlocking c5Input).any
      (fun kc => decide (osBsUsedThreads c5Input ≤ kc.pbs)) = true := by
  refine ⟨by decide, by decide, by decide⟩

/-- The parameters `compute_1x1_pack_input_nested` reads for its loop
nest: problem shape, the configuration fields, and whether a fusion
manager is attached. The model fixes the plain (non-blocked) output
layout and `oh_expr_ = oh` (known output format). -/
structure Emitter1x1Input where
  mb : Nat
  ic : Nat
  oc : Nat
  oh : Nat
  ow : Nat
  oc_block : Nat
  h_block : Nat
  w_block : Nat
  ic_block : Nat
  im_oc_block : Nat
  im_ic_block : Nat
  im_h_block : Nat
  im_w_block : Nat
  h_threads : Nat
  w_threads : Nat
  oc_threads : Nat
  fusion : Bool
deriving DecidableEq

/-- The value `oc_used_threads` of the 1×1 pack-input emitter (source line 445). -/
def x1OcUsedThreads (e : Emitter1x1Input) : Nat :=
  (blockSplit (divideAndCeil e.oc e.oc_block) e.oc_threads).1

/-- The value `oh_used_threads` of the 1×1 pack-input emitter (source line 448). -/
def x1OhUsedThreads (e : Emitter1x1Input) : Nat :=
  (blockSplit (divideAndCeil e.oh e.h_block) e.h_threads).1

/-- The value `ow_used_threads` of the 1×1 pack-input emitter (source line 451). -/
def x1OwUsedThreads (e : Emitter1x1Input) : Nat :=
  (blockSplit (divideAndCeil e.ow e.w_block) e.w_threads).1

/-- The value `ic_used_threads` of the 1×1 pack-input emitter (source line 454;
`ic_threads` is the constant 1, source line 402). -/
def x1IcUsedThreads (e : Emitter1x1Input) : Nat :=
  (blockSplit (divideAndCeil e.ic e.ic_block) 1).1

/-- One `brgemm` micro-kernel invocation of the 1×1 pack-input emitter,
identified by its loop indices (source lines 469-610). -/
structure X1KernelCall where
  pbs : Nat
  ph : Nat
  pw : Nat
  poc : Nat
  pic : Nat
  oH : Nat
  oW : Nat
  oOc : Nat
  oIc : Nat
  iH : Nat
  iW : Nat
  iOc : Nat
deriving DecidableEq

/-- The micro-kernel invocations of `compute_1x1_pack_input_nested`
(source lines 469-610): the thread loops `pbs → ph → pw → poc → pic`,
the single-core guard
`ph < oh_used_threads && pw < ow_used_threads && poc < oc_used_threads
&& pic < ic_used_threads`, the per-thread block loops with their `cond`
select guard, and the `h`, `w` and `oc` bound checks enclosing the
`brgemm` call. -/
def kernelCalls1x1PackInput (e : Emitter1x1Input) : List X1KernelCall :=
  let ocSplitRes := blockSplit (divideAndCeil e.oc e.oc_block) e.oc_threads
  let hSplitRes := blockSplit (divideAndCeil e.oh e.h_block) e.h_threads
  let wSplitRes := blockSplit (divideAndCeil e.ow e.w_block) e.w_threads
  let icSplitRes := blockSplit (divideAndCeil e.ic e.ic_block) 1
  let ocUsed := ocSplitRes.1
  let ocPt := ocSplitRes.2.1
  let ocTail := ocSplitRes.2.2
  let ohUsed := hSplitRes.1
  let hPt := hSplitRes.2.1
  let hTail := hSplitRes.2.2
  let owUsed := wSplitRes.1
  let wPt := wSplitRes.2.1
  let wTail := wSplitRes.2.2
  let icUsed := icSplitRes.1
  let icPt := icSplitRes.2.1
  let icTail := icSplitRes.2.2
  (List.range e.mb).flatMap fun pbs =>
    (List.range e.h_threads).flatMap fun ph =>
      (List.range e.w_threads).flatMap fun pw =>
        (List.range e.oc_threads).flatMap fun poc =>
          (List.range 1).flatMap fun pic =>
            if ph < ohUsed ∧ pw < owUsed ∧ poc < ocUsed ∧ pic < icUsed then
              let hNumBlock : Int := if (ph : Int) < (ohUsed : Int) - 1 then hPt else hTail
              let wNumBlock : Int := if (pw : Int) < (owUsed : Int) - 1 then wPt else wTail
              let ocNumBlock : Int :=
                if (poc : Int) < (ocUsed : Int) - 1 then ocPt else ocTail
              let icNumBlock : Int :=
                if (pic : Int) < (icUsed : Int) - 1 then icPt else icTail
              (List.range hPt).flatMap fun oH =>
                (List.range wPt).flatMap fun oW =>
                  (List.range ocPt).flatMap fun oOc =>
                    (List.range icPt).flatMap fun oIc =>
                      if (oH : Int) < hNumBlock ∧ (oW : Int) < wNumBlock ∧
                          (oOc : Int) < ocNumBlock ∧ (oIc : Int) < icNumBlock then
                        (List.range (e.h_block / e.im_h_block)).flatMap fun iH =>
                          let h := (ph * hPt * e.h_block / e.im_h_block
                            + oH * e.h_block / e.im_h_block + iH) * e.im_h_block
                          if h < e.oh then
                            (List.range (e.w_block / e.im_w_block)).flatMap fun iW =>
                              let w := (pw * wPt * e.w_block / e.im_w_block
                                + oW * e.w_block / e.im_w_block + iW) * e.im_w_block
                              if w < e.ow then
                                (List.range (e.oc_block / e.im_oc_block)).flatMap fun iOc =>
                                  let ocIdx := poc * ocPt * e.oc_block / e.im_oc_block
                                    + oOc * e.oc_block / e.im_oc_block + iOc
                                  if ocIdx * e.im_oc_block < e.oc then
                                    [⟨pbs, ph, pw, poc, pic, oH, oW, oOc, oIc,
                                      iH, iW, iOc⟩]
                                  else []
                              else []
                          else []
                      else []
            else []

/-- Membership in a guarded branch: an element of `if c then l else []`
certifies the guard. -/
theorem mem_ite_nil {α : Type} {c : Prop} [Decidable c] {l : List α} {x : α}
    (h : x ∈ if c then l else []) : c ∧ x ∈ l := by
  split at h
  · exact ⟨by assumption, h⟩
  · simp at h

/-- C5 (amended): in the os-blocking emitter every micro-kernel call has
its flattened-spatial, output-channel and input-channel thread indices
below the respective `used_threads` (guarded at source lines 1261-1262),
and in the 1×1 pack-input emitter every micro-kernel call has its
height, width, output-channel and input-channel thread indices below the
respective `used_threads` (guarded at source lines 481-482); the batch
loop carries no such guard — it iterates the full batch extent, and the
os-blocking emitter's `bs_used_threads` is computed but never used — so
the claim's batch conjunct fails. -/
theorem c5_thread_guards_amended :
    (∀ (e : OsEmitterInput), ∀ kc ∈ kernelCallsOsBlocking e,
      kc.ps < osSUsedThreads e ∧ kc.poc < osOcUsedThreads e ∧
        kc.pic < osIcUsedThreads e) ∧
    (∀ (e : Emitter1x1Input), ∀ kc ∈ kernelCalls1x1PackInput e,
      kc.ph < x1OhUsedThreads e ∧ kc.pw < x1OwUsedThreads e ∧
        kc.poc < x1OcUsedThreads e ∧ kc.pic < x1IcUsedThreads e) := by
  constructor
  · intro e kc hmem
    rw [kernelCallsOsBlocking] at hmem
    simp only [List.mem_flatMap, List.mem_range] at hmem
    obtain ⟨outerK, _, pbs, _, ps, _, poc, _, pic, _, hrest⟩ := hmem
    obtain ⟨hguard, hrest⟩ := mem_ite_nil hrest
    simp only [List.mem_flatMap, List.mem_range] at hrest
    obtain ⟨oS, _, oOc, _, oIc, _, hrest⟩ := hrest
    obtain ⟨_, hrest⟩ := mem_ite_nil hrest
    simp only [List.mem_flatMap, List.mem_range] at hrest
    obtain ⟨iOc, _, hrest⟩ := hrest
    obtain ⟨_, hrest⟩ := mem_ite_nil hrest
    simp only [List.mem_map, List.mem_range] at hrest
    obtain ⟨iS, _, heq⟩ := hrest
    rw [← heq]
    exact ⟨hguard.1, hguard.2.1, hguard.2.2⟩
  · intro e kc hmem
    rw [kernelCalls1x1PackInput] at hmem
    simp only [List.mem_flatMap, List.mem_range] at hmem
    obtain ⟨pbs, _, ph, _, pw, _, poc, _, pic, _, hrest⟩ := hmem
    obtain ⟨hguard, hrest⟩ := mem_ite_nil hrest
    simp only [List.mem_flatMap, List.mem_range] at hrest
    obtain ⟨oH, _, oW, _, oOc, _, oIc, _, hrest⟩ := hrest
    obtain ⟨_, hrest⟩ := mem_ite_nil hrest
    simp only [List.mem_flatMap, List.mem_range] at hrest
    obtain ⟨iH, _, hrest⟩ := hrest
    obtain ⟨_, hrest⟩ := mem_ite_nil hrest
    simp only [List.mem_flatMap, List.mem_range] at hrest
    obtain ⟨iW, _, hrest⟩ := hrest
    obtain ⟨_, hrest⟩ := mem_ite_nil hrest
    simp only [List.mem_flatMap, List.mem_range] at hrest
    obtain ⟨iOc, _, hrest⟩ := hrest
    obtain ⟨_, hrest⟩ := mem_ite_nil hrest
    simp only [List.mem_singleton] at hrest
    rw [hrest]
    exact ⟨hguard.1, hguard.2.1, hguard.2.2.1, hguard.2.2.2⟩

/-- The all-ones 1×1 pack-input instance with a fusion manager. -/
def x1TinyInput : Emitter1x1Input :=
  { mb := 1, ic := 1, oc := 1, oh := 1, ow := 1,
    oc_block := 1, h_block := 1, w_block := 1, ic_block := 1,
    im_oc_block := 1, im_ic_block := 1, im_h_block := 1, im_w_block := 1,
    h_threads := 1, w_threads := 1, oc_threads := 1, fusion := true }

/-- A concrete micro-kernel call of the os-blocking emitter at
`c5Input`. -/
def osKc0 : OsKernelCall :=
  { outerK := 0, pbs := 0, ps := 0, poc := 0, pic := 0,
    oS := 0, oOc := 0, oIc := 0, iOc := 0, iS := 0 }

/-- A concrete micro-kernel call of the 1×1 pack-input emitter at
`x1TinyInput`. -/
def x1Kc0 : X1KernelCall :=
  { pbs := 0, ph := 0, pw := 0, poc := 0, pic := 0,
    oH := 0, oW := 0, oOc := 0, oIc := 0, iH := 0, iW := 0, iOc := 0 }

/-- C5 witness: the amended guard theorem applied to concrete calls of
both emitters. -/
theorem c5_thread_guards_amended_witness :
    osKc0 ∈ kernelCallsOsBlocking c5Input ∧
    (osKc0.ps < osSUsedThreads c5Input ∧
      osKc0.poc < osOcUsedThreads c5Input ∧
      osKc0.pic < osIcUsedThreads c5Input) ∧
    x1Kc0 ∈ kernelCalls1x1PackInput x1TinyInput ∧
    (x1Kc0.ph < x1OhUsedThreads x1TinyInput ∧
      x1Kc0.pw < x1OwUsedThreads x1TinyInput ∧
      x1Kc0.poc < x1OcUsedThreads x1TinyInput ∧
      x1Kc0.pic < x1IcUsedThreads x1TinyInput) :=
  ⟨by decide, c5_thread_guards_amended.1 c5Input osKc0 (by decide),
    by decide, c5_thread_guards_amended.2 x1TinyInput x1Kc0 (by decide)⟩

/-- A published output region (a `tensor_slice` of the plain-layout
output): start and length along batch, height, width and channel. -/
structure Region where
  n0 : Nat
  nLen : Nat
  h0 : Nat
  hLen : Nat
  w0 : Nat
  wLen : Nat
  c0 : Nat
  cLen : Nat
deriving DecidableEq

/-- Whether output element `(n, h, w, c)` lies in a published region. -/
def memRegion (n h w c : Nat) (r : Region) : Bool :=
  decide (r.n0 ≤ n ∧ n < r.n0 + r.nLen ∧ r.h0 ≤ h ∧ h < r.h0 + r.hLen ∧
    r.w0 ≤ w ∧ w < r.w0 + r.wLen ∧ r.c0 ≤ c ∧ c < r.c0 + r.cLen)

/-- The fusion anchors published inside the single-core guard of
`compute_1x1_pack_input_nested` for one thread-index tuple: the
micro-tile anchor (source line 612), the `oc_block` anchor (line 631),
the `w_block` anchor (line 654) and the `h_block` anchor (line 680),
each conditional on `fusion`, a single input-channel chunk, the
respective full-coverage conditions, and `o_ic == ic_num_block - 1`. -/
def anchors1x1Work (e : Emitter1x1Input) (ph pw poc pic pbs : Nat) : List Region :=
  let ocSplitRes := blockSplit (divideAndCeil e.oc e.oc_block) e.oc_threads
  let hSplitRes := blockSplit (divideAndCeil e.oh e.h_block) e.h_threads
  let wSplitRes := blockSplit (divideAndCeil e.ow e.w_block) e.w_threads
  let icSplitRes := blockSplit (divideAndCeil e.ic e.ic_block) 1
  let ocUsed := ocSplitRes.1
  let ocPt := ocSplitRes.2.1
  let ocTail := ocSplitRes.2.2
  let ohUsed := hSplitRes.1
  let hPt := hSplitRes.2.1
  let hTail := hSplitRes.2.2
  let owUsed := wSplitRes.1
  let wPt := wSplitRes.2.1
  let wTail := wSplitRes.2.2
  let icUsed := icSplitRes.1
  let icPt := icSplitRes.2.1
  let icTail := icSplitRes.2.2
  (List.range hPt).flatMap fun oH =>
    (List.range wPt).flatMap fun oW =>
      (List.range ocPt).flatMap fun oOc =>
        (List.range icPt).flatMap fun oIc =>
          let hNumBlock : Int := if (ph : Int) < (ohUsed : Int) - 1 then hPt else hTail
          let wNumBlock : Int := if (pw : Int) < (owUsed : Int) - 1 then wPt else wTail
          let ocNumBlock : Int :=
            if (poc : Int) < (ocUsed : Int) - 1 then ocPt else ocTail
          let icNumBlock : Int :=
            if (pic : Int) < (icUsed : Int) - 1 then icPt else icTail
          if (oH : Int) < hNumBlock ∧ (oW : Int) < wNumBlock ∧
              (oOc : Int) < ocNumBlock ∧ (oIc : Int) < icNumBlock then
            let anchC := poc * ocPt * e.oc_block / e.im_oc_block
              + oOc * e.oc_block / e.im_oc_block
            let anchH := (ph * hPt * e.h_block / e.im_h_block
              + oH * e.h_block / e.im_h_block) * e.im_h_block
            let anchW := (pw * wPt * e.w_block / e.im_w_block
              + oW * e.w_block / e.im_w_block) * e.im_w_block
            ((List.range (e.h_block / e.im_h_block)).flatMap fun iH =>
              let h := (ph * hPt * e.h_block / e.im_h_block
                + oH * e.h_block / e.im_h_block + iH) * e.im_h_block
              if h < e.oh then
                ((List.range (e.w_block / e.im_w_block)).flatMap fun iW =>
                  let w := (pw * wPt * e.w_block / e.im_w_block
                    + oW * e.w_block / e.im_w_block + iW) * e.im_w_block
                  if w < e.ow then
                    ((List.range (e.oc_block / e.im_oc_block)).flatMap fun iOc =>
                      let ocIdx := poc * ocPt * e.oc_block / e.im_oc_block
                        + oOc * e.oc_block / e.im_oc_block + iOc
                      if ocIdx * e.im_oc_block < e.oc then
                        (if e.fusion = true ∧ icUsed = 1 ∧ icPt = 1 ∧
                            (oIc : Int) = icNumBlock - 1 then
                          [⟨pbs, 1, h, e.im_h_block, w, e.im_w_block,
                            ocIdx * e.im_oc_block, e.im_oc_block⟩]
                        else [])
                      else [])
                    ++ (if e.fusion = true ∧ icUsed = 1 ∧ icPt = 1 ∧
                          e.oc_block * ocUsed = e.oc ∧
                          (oIc : Int) = icNumBlock - 1 then
                        [⟨pbs, 1, h, e.im_h_block, w, e.im_w_block,
                          anchC * e.im_oc_block, e.oc_block⟩]
                      else [])
                  else [])
                ++ (if e.fusion = true ∧ icUsed = 1 ∧ icPt = 1 ∧
                      e.oc_block * ocUsed = e.oc ∧ e.w_block * owUsed = e.ow ∧
                      (oIc : Int) = icNumBlock - 1 then
                    [⟨pbs, 1, h, e.im_h_block, anchW, e.w_block,
                      anchC * e.im_oc_block, e.oc_block⟩]
                  else [])
              else [])
            ++ (if e.fusion = true ∧ icUsed = 1 ∧ icPt = 1 ∧
                  e.oc_block * ocUsed = e.oc ∧ e.w_block * owUsed = e.ow ∧
                  e.h_block * ohUsed = e.oh ∧ (oIc : Int) = icNumBlock - 1 then
                [⟨pbs, 1, anchH, e.h_block, anchW, e.w_block,
                  anchC * e.im_oc_block, e.oc_block⟩]
              else [])
          else []

/-- All fusion anchors published by `compute_1x1_pack_input_nested`
(source lines 469-764), plain output layout, `oh_expr_ = oh`: the
guarded single-core anchors (lines 612, 631, 654, 680), then the
batch-slice anchors after the `pic` loop (line 718, requiring
single-thread oc/h/w axes and the constant `ic_threads == 1`), after the
`poc` loop (line 728), after the `pw` loop (line 737), after the `ph`
loop (line 747), and the `mb_ > 1` anchor after the thread loops
(line 756). -/
def anchors1x1PackInput (e : Emitter1x1Input) : List Region :=
  let ocSplitRes := blockSplit (divideAndCeil e.oc e.oc_block) e.oc_threads
  let hSplitRes := blockSplit (divideAndCeil e.oh e.h_block) e.h_threads
  let wSplitRes := blockSplit (divideAndCeil e.ow e.w_block) e.w_threads
  let icSplitRes := blockSplit (divideAndCeil e.ic e.ic_block) 1
  let ocUsed := ocSplitRes.1
  let ohUsed := hSplitRes.1
  let owUsed := wSplitRes.1
  let icUsed := icSplitRes.1
  (List.range e.mb).flatMap fun pbs =>
    ((List.range e.h_threads).flatMap fun ph =>
      ((List.range e.w_threads).flatMap fun pw =>
        ((List.range e.oc_threads).flatMap fun poc =>
          ((List.range 1).flatMap fun pic =>
            (if ph < ohUsed ∧ pw < owUsed ∧ poc < ocUsed ∧ pic < icUsed then
              anchors1x1Work e ph pw poc pic pbs
            else [])
            ++ (if e.fusion = true ∧ e.oc_threads = 1 ∧ e.h_threads = 1 ∧
                  e.w_threads = 1 then
                [⟨pbs, 1, 0, e.oh, 0, e.ow, 0, e.oc⟩]
              else []))
          ++ (if e.fusion = true ∧ e.oc_threads = 1 ∧ e.h_threads = 1 ∧
                e.w_threads = 1 then
              [⟨pbs, 1, 0, e.oh, 0, e.ow, 0, e.oc⟩]
            else []))
        ++ (if e.fusion = true ∧ e.h_threads = 1 ∧ e.w_threads = 1 then
            [⟨pbs, 1, 0, e.oh, 0, e.ow, 0, e.oc⟩]
          else []))
      ++ (if e.fusion = true ∧ e.h_threads = 1 then
          [⟨pbs, 1, 0, e.oh, 0, e.ow, 0, e.oc⟩]
        else []))
    ++ (if e.fusion = true ∧ 1 < e.mb then
        [⟨pbs, 1, 0, e.oh, 0, e.ow, 0, e.oc⟩]
      else [])

/-- The all-ones 1×1 pack-input instance again, for the anchor overlap
count. -/
def c3OverlapInput : Emitter1x1Input :=
  { mb := 1, ic := 1, oc := 1, oh := 1, ow := 1,
    oc_block := 1, h_block := 1, w_block := 1, ic_block := 1,
    im_oc_block := 1, im_ic_block := 1, im_h_block := 1, im_w_block := 1,
    h_threads := 1, w_threads := 1, oc_threads := 1, fusion := true }

/-- A valid 1×1 pack-input instance whose plan publishes no anchor at
all: batch 1 (kills the `mb_ > 1` anchor), two height threads (kills
the batch-slice anchors), and two input-channel chunks
(`ic = 2 = 2 * C_block`, killing the guarded anchors, which require
`ic_num_block_pt == 1`). -/
def c3GapInput : Emitter1x1Input :=
  { mb := 1, ic := 2, oc := 1, oh := 2, ow := 1,
    oc_block := 1, h_block := 1, w_block := 1, ic_block := 1,
    im_oc_block := 1, im_ic_block := 1, im_h_block := 1, im_w_block := 1,
    h_threads := 2, w_threads := 1, oc_threads := 1, fusion := true }

/-- C3 counterexample: the anchors do not partition the output exactly
once. At `c3OverlapInput` the single output element is covered by 8
distinct publication events (the four guarded anchors and the four
batch-slice anchors), and at `c3GapInput` the emitted plan publishes no
anchor at all, leaving every output element uncovered. -/
theorem c3_claim_counterexample :
    (anchors1x1PackInput c3OverlapInput).countP
      (fun r => memRegion 0 0 0 0 r) = 8 ∧
    anchors1x1PackInput c3GapInput = [] := by
  refine ⟨by decide, by decide⟩

/-- C3 (amended): the publication events of the 1×1 pack-input emitter
cover the output (no gaps) whenever a fusion manager is attached and
the height thread axis is single-threaded — each batch slice is
published whole by the anchor after the `pw` loop — but elements can
lie in several published regions, and plans with a multi-threaded
height axis, batch 1 and several input-channel chunks publish
nothing. -/
theorem c3_anchor_coverage_amended (e : Emitter1x1Input)
    (hfus : e.fusion = true) (hht : e.h_threads = 1)
    (n h w c : Nat) (hn : n < e.mb) (hh : h < e.oh) (hw : w < e.ow)
    (hc : c < e.oc) :
    ∃ r ∈ anchors1x1PackInput e, memRegion n h w c r = true := by
  refine ⟨⟨n, 1, 0, e.oh, 0, e.ow, 0, e.oc⟩, ?_, ?_⟩
  · rw [anchors1x1PackInput]
    simp only [List.mem_flatMap, List.mem_range]
    refine ⟨n, hn, ?_⟩
    rw [List.mem_append]
    left
    simp only [List.mem_flatMap, List.mem_range]
    refine ⟨0, by omega, ?_⟩
    rw [List.mem_append]
    right
    rw [if_pos ⟨hfus, hht⟩]
    simp
  · simp only [memRegion, decide_eq_true_eq]
    omega

/-- C3 witness: the amended coverage theorem at the all-ones instance,
element `(0, 0, 0, 0)`. -/
theorem c3_anchor_coverage_amended_witness :
    (x1TinyInput.fusion = true ∧ x1TinyInput.h_threads = 1 ∧
      0 < x1TinyInput.mb ∧ 0 < x1TinyInput.oh ∧ 0 < x1TinyInput.ow ∧
      0 < x1TinyInput.oc) ∧
    ∃ r ∈ anchors1x1PackInput x1TinyInput, memRegion 0 0 0 0 r = true :=
  ⟨⟨by decide, by decide, by decide, by decide, by decide, by decide⟩,
    c3_anchor_coverage_amended x1TinyInput (by decide) (by decide) 0 0 0 0
      (by decide) (by decide) (by decide) (by decide)⟩

end NestedConvFwd
